import Mathlib

/-!
Verification of the controlled document-editing and dual-approval workflow
(review state machine, whitelist validator with content sanitization, block
content composition, and single-use download-token / approval-code
consumption), as a shallow embedding of the Python sources under `src/api`.

Conventions of the embedding:
* Python `str` is Lean `String`; Python dicts keyed by strings are
  association lists (`List (String × _)`) with first-match lookup and
  in-place replacement on update, mirroring insertion-ordered Python dicts.
* `datetime` values are identified by their ISO-8601 rendering (a wrapper
  around `String`), since `datetime.fromisoformat` is a left inverse of
  `datetime.isoformat`; wall-clock instants used for expiry comparison of
  tokens and codes are modelled as `Nat`.
* Fallible code returns `Option` / sum-like results; Python functions that
  return a success flag return `Bool × _` pairs (flag, updated object).
-/

/-- Whitespace characters stripped by Python `str.strip()` (the ASCII
fragment: space, tab, newline, carriage return, vertical tab, form feed). -/
def isPySpace (c : Char) : Bool :=
  c = ' ' || c = '\t' || c = '\n' || c = '\r' || c = Char.ofNat 11 || c = Char.ofNat 12

/-- Python `str.strip()` on a character list. -/
def pyStripList (l : List Char) : List Char :=
  ((l.dropWhile isPySpace).reverse.dropWhile isPySpace).reverse

/-- Python `str.strip()`. -/
def pyStrip (s : String) : String := ⟨pyStripList s.data⟩

/-- Python `str.upper()` (ASCII fragment). -/
def pyUpper (s : String) : String := ⟨s.data.map Char.toUpper⟩

/-- Scalar values stored in a review's data map (`data_json`).  The source
allows arbitrary JSON scalars; lists and nested objects are outside this
model, which no claim under verification depends on. -/
inductive Value where
  | vStr : String → Value
  | vInt : Int → Value
  | vBool : Bool → Value
deriving DecidableEq, Repr

/-- JSON values, the codomain of the `to_dict` serializers. -/
inductive JsonV where
  | jstr : String → JsonV
  | jnum : Int → JsonV
  | jbool : Bool → JsonV
  | jnull : JsonV
  | jarr : List JsonV → JsonV
  | jobj : List (String × JsonV) → JsonV
deriving Repr

/-- Injection of data-map scalars into JSON. -/
def Value.toJson : Value → JsonV
  | .vStr s => .jstr s
  | .vInt i => .jnum i
  | .vBool b => .jbool b

/-- Partial inverse of `Value.toJson`. -/
def JsonV.toValue : JsonV → Option Value
  | .jstr x => some (.vStr x)
  | .jnum i => some (.vInt i)
  | .jbool b => some (.vBool b)
  | _ => none

/-- Lookup in a string-keyed association list (Python `d.get(k)` /
`d[k]`). -/
def dictGet {α : Type} (m : List (String × α)) (k : String) : Option α :=
  (m.find? (fun p => p.1 = k)).map (fun p => p.2)

/-- Python `d[k] = v` on an insertion-ordered dict: replace in place when
the key is present, append otherwise. -/
def dictSet {α : Type} (m : List (String × α)) (k : String) (v : α) :
    List (String × α) :=
  if m.any (fun p => p.1 = k) then
    m.map (fun p => if p.1 = k then (k, v) else p)
  else m ++ [(k, v)]

/-- Membership of a key (Python `k in d`). -/
def dictHas {α : Type} (m : List (String × α)) (k : String) : Bool :=
  m.any (fun p => p.1 = k)

/-! Embedding of `src/api/services/block_parser.py`. -/

/-- Append mode of a block (`AppendMode` enum). -/
inductive AppendMode where
  | newline
  | inline
  | labelled
deriving DecidableEq, Repr

/-- Content kind of a block custom field (`CustomFieldType` enum). -/
inductive CustomFieldType where
  | text
  | richtext_limited
deriving DecidableEq, Repr

/-- BlockParser.combine_content: combine base content with custom content
according to the append mode.  Mirrors the source exactly: empty or
whitespace-only custom returns the base verbatim, and otherwise the
stripped custom is appended after the mode's separator (and after the
label when one is configured in labelled mode). -/
def combine_content (base custom : String) (mode : AppendMode) (label : String) : String :=
  if pyStrip custom = "" then base
  else
    let c := pyStrip custom
    match mode with
    | .newline => base ++ "\n" ++ c
    | .inline => base ++ " " ++ c
    | .labelled =>
      if label = "" then base ++ "\n" ++ c
      else base ++ "\n" ++ label ++ " " ++ c

/-- Word characters of the regex class used by `TAG_PATTERN` (ASCII
fragment of Python re's word class). -/
def isWordChar (c : Char) : Bool := c.isAlphanum || c = '_'

/-- HtmlSanitizer.ALLOWED_TAGS. -/
def ALLOWED_TAGS : List String := ["b", "i", "u", "br", "ul", "ol", "li", "p", "strong", "em"]

/-- Result of matching the tag regex at one position: whether the tag was
a closing tag, its name, and the input remaining after the closing angle
bracket. -/
structure TagMatch where
  closing : Bool
  name : List Char
  rest : List Char

/-- Attempt to match HtmlSanitizer.TAG_PATTERN right after an opening
angle bracket: an optional slash, one or more word characters (the tag
name), any run of characters other than the closing angle bracket (the
attributes, discarded), then the closing angle bracket. -/
def matchTag (l : List Char) : Option TagMatch :=
  let p := match l with
    | '/' :: t => (true, t)
    | _ => (false, l)
  let name := p.2.takeWhile isWordChar
  if name.isEmpty then none
  else
    match (p.2.dropWhile isWordChar).dropWhile (fun c => c ≠ '>') with
    | '>' :: rest => some ⟨p.1, name, rest⟩
    | _ => none

/-- The replacement computed by HtmlSanitizer.sanitize's `replace_tag`
callback: allowed tags are re-emitted lowercased with all attributes
stripped, disallowed tags are replaced by the empty string. -/
def replaceTag (closing : Bool) (name : List Char) : List Char :=
  let nm := name.map Char.toLower
  if ALLOWED_TAGS.contains ⟨nm⟩ then
    if closing then '<' :: '/' :: (nm ++ ['>'])
    else if (⟨nm⟩ : String) = "br" then ['<', 'b', 'r', '>']
    else '<' :: (nm ++ ['>'])
  else []

/-- Left-to-right scan performing `TAG_PATTERN.sub(replace_tag, input)`:
at each opening angle bracket the regex is attempted, and on a match the
replacement is emitted and the scan resumes after the match.  The fuel
argument bounds the recursion and is always at least the input length at
the call sites, so the fuel-exhausted branch is never reached. -/
def sanitizeFuel : Nat → List Char → List Char
  | 0, l => l
  | _ + 1, [] => []
  | f + 1, '<' :: rest =>
    match matchTag rest with
    | some m => replaceTag m.closing m.name ++ sanitizeFuel f m.rest
    | none => '<' :: sanitizeFuel f rest
  | f + 1, c :: rest => c :: sanitizeFuel f rest

/-- HtmlSanitizer.sanitize. -/
def sanitize (s : String) : String := ⟨sanitizeFuel s.data.length s.data⟩

/-- Left-to-right scan performing `re.sub(r'<[^>]+>', '', input)`: a
maximal run of one or more characters other than the closing angle
bracket, enclosed in angle brackets, is deleted; an opening bracket with
no such match is kept. -/
def removeTagsFuel : Nat → List Char → List Char
  | 0, l => l
  | _ + 1, [] => []
  | f + 1, '<' :: rest =>
    let body := rest.takeWhile (fun c => c ≠ '>')
    if body.isEmpty then '<' :: removeTagsFuel f rest
    else
      match rest.dropWhile (fun c => c ≠ '>') with
      | '>' :: rest2 => removeTagsFuel f rest2
      | _ => '<' :: removeTagsFuel f rest
  | f + 1, c :: rest => c :: removeTagsFuel f rest

/-- The tag-removal pass of HtmlSanitizer.strip_all_tags. -/
def removeTags (s : String) : String := ⟨removeTagsFuel s.data.length s.data⟩

/-- One step of HTML character-entity decoding at a position starting with
an ampersand: the semicolon-terminated named entities for the angle
brackets, ampersand, quote and apostrophe, and the decimal numeric form
for the apostrophe.  This models the fragment of Python `html.unescape`
exercised here; `html.unescape` decodes in a single left-to-right pass. -/
def entityAt (l : List Char) : Option (Char × List Char) :=
  match l with
  | 'l' :: 't' :: ';' :: rest => some ('<', rest)
  | 'g' :: 't' :: ';' :: rest => some ('>', rest)
  | 'a' :: 'm' :: 'p' :: ';' :: rest => some ('&', rest)
  | 'q' :: 'u' :: 'o' :: 't' :: ';' :: rest => some ('"', rest)
  | '#' :: '3' :: '9' :: ';' :: rest => some (Char.ofNat 39, rest)
  | _ => none

/-- Single-pass entity decoding (the fragment of `html.unescape` described
at `entityAt`). -/
def unescapeFuel : Nat → List Char → List Char
  | 0, l => l
  | _ + 1, [] => []
  | f + 1, '&' :: rest =>
    match entityAt rest with
    | some (c, rest2) => c :: unescapeFuel f rest2
    | none => '&' :: unescapeFuel f rest
  | f + 1, c :: rest => c :: unescapeFuel f rest

/-- Python `html.unescape` (modelled fragment, see `entityAt`). -/
def unescape (s : String) : String := ⟨unescapeFuel s.data.length s.data⟩

/-- HtmlSanitizer.strip_all_tags: remove every tag substring, then decode
HTML character entities, then strip surrounding whitespace. -/
def strip_all_tags (s : String) : String := pyStrip (unescape (removeTags s))

/-! Embedding of `src/api/models/review.py`. -/

/-- A Python `datetime` value, identified by its ISO-8601 rendering
(`datetime.isoformat` is injective and `datetime.fromisoformat` is its
left inverse, so the value is determined by the string). -/
structure Datetime where
  iso : String
deriving DecidableEq, Repr

/-- ReviewStatus enum: the review state machine. -/
inductive ReviewStatus where
  | DRAFT
  | SUBMITTED
  | DOWNLOADED
deriving DecidableEq, Repr

/-- String value of a ReviewStatus member (Python `status.value`). -/
def ReviewStatus.value : ReviewStatus → String
  | .DRAFT => "DRAFT"
  | .SUBMITTED => "SUBMITTED"
  | .DOWNLOADED => "DOWNLOADED"

/-- Python `ReviewStatus(s)`: parse a status from its string value. -/
def ReviewStatus.ofValue (s : String) : Option ReviewStatus :=
  if s = "DRAFT" then some .DRAFT
  else if s = "SUBMITTED" then some .SUBMITTED
  else if s = "DOWNLOADED" then some .DOWNLOADED
  else none

/-- Rank of a status along the DRAFT → SUBMITTED → DOWNLOADED order. -/
def ReviewStatus.rank : ReviewStatus → Nat
  | .DRAFT => 0
  | .SUBMITTED => 1
  | .DOWNLOADED => 2

/-- AuditLogEntry dataclass. -/
structure AuditLogEntry where
  timestamp : String
  action : String
  actor : String
  field_name : Option String
  old_value : Option Value
  new_value : Option Value
  ip_address : Option String
  user_agent : Option String
  details : Option String
deriving DecidableEq, Repr

/-- The review's data map (`data_json`): string-keyed dict of scalars. -/
abbrev DataMap := List (String × Value)

/-- Review dataclass. -/
structure Review where
  review_id : String
  doc_type : String
  status : ReviewStatus
  data_json : DataMap
  created_by : String
  created_at : Datetime
  audit_log : List AuditLogEntry
  submitted_at : Option Datetime
  downloaded_at : Option Datetime
  downloaded_by : Option String
deriving DecidableEq, Repr

/-- Review.add_audit_log: append an entry to the audit log. -/
def Review.add_audit_log (r : Review) (e : AuditLogEntry) : Review :=
  { r with audit_log := r.audit_log ++ [e] }

/-- Review.can_edit: only DRAFT reviews are editable. -/
def Review.can_edit (r : Review) : Bool := r.status = ReviewStatus.DRAFT

/-- Review.can_submit: only DRAFT reviews may be submitted. -/
def Review.can_submit (r : Review) : Bool := r.status = ReviewStatus.DRAFT

/-- Review.can_download: only SUBMITTED reviews may be downloaded. -/
def Review.can_download (r : Review) : Bool := r.status = ReviewStatus.SUBMITTED

/-- Review.create: fresh review in DRAFT status with a single creation
audit entry.  The fresh identifier and the current time are arguments of
the embedding (`uuid.uuid4()` and `datetime.utcnow()` in the source). -/
def Review.create (review_id : String) (doc_type : String) (initial_data : DataMap)
    (created_by : String) (now : Datetime) : Review :=
  let r : Review := {
    review_id := review_id
    doc_type := doc_type
    status := .DRAFT
    data_json := initial_data
    created_by := created_by
    created_at := now
    audit_log := []
    submitted_at := none
    downloaded_at := none
    downloaded_by := none }
  r.add_audit_log {
    timestamp := now.iso
    action := "create"
    actor := created_by
    field_name := none
    old_value := none
    new_value := none
    ip_address := none
    user_agent := none
    details := some ("Review created for doc_type=" ++ doc_type) }

/-- Review.update_field: mutate one field of the data map with audit
logging; returns the failure flag false and the unchanged review when the
review is not editable. -/
def Review.update_field (r : Review) (field_name : String) (new_value : Value)
    (actor : String) (ip_address : Option String) (now : Datetime) : Bool × Review :=
  if ¬ r.can_edit then (false, r)
  else
    let old_value := dictGet r.data_json field_name
    let r1 := { r with data_json := dictSet r.data_json field_name new_value }
    (true, r1.add_audit_log {
      timestamp := now.iso
      action := "field_update"
      actor := actor
      field_name := some field_name
      old_value := old_value
      new_value := some new_value
      ip_address := ip_address
      user_agent := none
      details := none })

/-- Review.log_unauthorized_attempt: always succeeds, appends an audit
entry, mutates no data. -/
def Review.log_unauthorized_attempt (r : Review) (field_name : String)
    (attempted_value : Value) (actor : String) (ip_address : Option String)
    (now : Datetime) : Review :=
  r.add_audit_log {
    timestamp := now.iso
    action := "unauthorized_field_attempt"
    actor := actor
    field_name := some field_name
    old_value := none
    new_value := some attempted_value
    ip_address := ip_address
    user_agent := none
    details := some "Attempted to update non-editable field" }

/-- Review.submit: DRAFT → SUBMITTED, recording the submission timestamp
and one audit entry; fails (false, unchanged) otherwise. -/
def Review.submit (r : Review) (actor : String) (ip_address : Option String)
    (now : Datetime) : Bool × Review :=
  if ¬ r.can_submit then (false, r)
  else
    let r1 := { r with status := .SUBMITTED, submitted_at := some now }
    (true, r1.add_audit_log {
      timestamp := now.iso
      action := "submit"
      actor := actor
      field_name := none
      old_value := none
      new_value := none
      ip_address := ip_address
      user_agent := none
      details := some "Review submitted and frozen" })

/-- Review.mark_downloaded: SUBMITTED → DOWNLOADED, recording downloader
identity, timestamp and one audit entry; fails (false, unchanged)
otherwise. -/
def Review.mark_downloaded (r : Review) (actor : String) (ip_address : Option String)
    (user_agent : Option String) (now : Datetime) : Bool × Review :=
  if ¬ r.can_download then (false, r)
  else
    let r1 := { r with status := .DOWNLOADED, downloaded_at := some now,
                        downloaded_by := some actor }
    (true, r1.add_audit_log {
      timestamp := now.iso
      action := "download"
      actor := actor
      field_name := none
      old_value := none
      new_value := none
      ip_address := ip_address
      user_agent := user_agent
      details := some "Document downloaded by manager" })

/-- One operation against a review's in-memory object, with the
call-site arguments (including the wall-clock timestamp) baked in. -/
inductive ReviewOp where
  | update (field : String) (v : Value) (actor : String) (ip : Option String) (now : Datetime)
  | logUnauthorized (field : String) (v : Value) (actor : String) (ip : Option String) (now : Datetime)
  | submitOp (actor : String) (ip : Option String) (now : Datetime)
  | markDownloadedOp (actor : String) (ip : Option String) (ua : Option String) (now : Datetime)

/-- Apply one operation to a review (discarding the success flag, as the
review object is in the same state either way). -/
def applyOp (r : Review) : ReviewOp → Review
  | .update f v a ip t => (r.update_field f v a ip t).2
  | .logUnauthorized f v a ip t => r.log_unauthorized_attempt f v a ip t
  | .submitOp a ip t => (r.submit a ip t).2
  | .markDownloadedOp a ip ua t => (r.mark_downloaded a ip ua t).2

/-- Apply a sequence of operations left to right. -/
def applyOps (r : Review) (ops : List ReviewOp) : Review := ops.foldl applyOp r

/-- Whether an operation succeeds against the given review (the Bool the
source returns; log_unauthorized_attempt always succeeds). -/
def opSucceeds (r : Review) : ReviewOp → Bool
  | .update _ _ _ _ _ => r.can_edit
  | .logUnauthorized _ _ _ _ _ => true
  | .submitOp _ _ _ => r.can_submit
  | .markDownloadedOp _ _ _ _ => r.can_download

/-- Whether an operation is an update_field call. -/
def isUpdateOp : ReviewOp → Bool
  | .update _ _ _ _ _ => true
  | _ => false

/-! Serialization of reviews and audit entries (Review.to_dict /
Review.from_dict, AuditLogEntry.to_dict / AuditLogEntry.from_dict). -/

/-- Helper for the optional pairs of AuditLogEntry.to_dict: a key is
emitted only when the value is not None. -/
def optPair (k : String) (v : Option JsonV) : List (String × JsonV) :=
  match v with
  | some j => [(k, j)]
  | none => []

/-- AuditLogEntry.to_dict: serialize, dropping every None field. -/
def AuditLogEntry.to_dict (e : AuditLogEntry) : List (String × JsonV) :=
  [("timestamp", .jstr e.timestamp), ("action", .jstr e.action), ("actor", .jstr e.actor)]
    ++ (optPair "field_name" (e.field_name.map .jstr)
    ++ (optPair "old_value" (e.old_value.map Value.toJson)
    ++ (optPair "new_value" (e.new_value.map Value.toJson)
    ++ (optPair "ip_address" (e.ip_address.map .jstr)
    ++ (optPair "user_agent" (e.user_agent.map .jstr)
    ++ optPair "details" (e.details.map .jstr))))))

/-- Read an optional string-valued key. -/
def getStr? (d : List (String × JsonV)) (k : String) : Option String :=
  match dictGet d k with
  | some (.jstr v) => some v
  | _ => none

/-- Read an optional scalar-valued key. -/
def getVal? (d : List (String × JsonV)) (k : String) : Option Value :=
  match dictGet d k with
  | some j => j.toValue
  | none => none

/-- AuditLogEntry.from_dict: rebuild an entry from present keys, absent
keys taking the dataclass default None; the three required fields must be
present (a missing one raises in the source, modelled as failure). -/
def AuditLogEntry.from_dict (d : List (String × JsonV)) : Option AuditLogEntry :=
  match getStr? d "timestamp", getStr? d "action", getStr? d "actor" with
  | some ts, some ac, some who =>
    some {
      timestamp := ts
      action := ac
      actor := who
      field_name := getStr? d "field_name"
      old_value := getVal? d "old_value"
      new_value := getVal? d "new_value"
      ip_address := getStr? d "ip_address"
      user_agent := getStr? d "user_agent"
      details := getStr? d "details" }
  | _, _, _ => none

/-- Serialization of an optional datetime (`x.isoformat() if x else None`). -/
def optIso : Option Datetime → JsonV
  | some t => .jstr t.iso
  | none => .jnull

/-- Serialization of an optional string (emitted as-is, None as null). -/
def optJStr : Option String → JsonV
  | some s => .jstr s
  | none => .jnull

/-- Review.to_dict. -/
def Review.to_dict (r : Review) : List (String × JsonV) :=
  [("review_id", .jstr r.review_id),
   ("doc_type", .jstr r.doc_type),
   ("status", .jstr r.status.value),
   ("data_json", .jobj (r.data_json.map (fun p => (p.1, p.2.toJson)))),
   ("created_by", .jstr r.created_by),
   ("created_at", .jstr r.created_at.iso),
   ("audit_log", .jarr (r.audit_log.map (fun e => .jobj e.to_dict))),
   ("submitted_at", optIso r.submitted_at),
   ("downloaded_at", optIso r.downloaded_at),
   ("downloaded_by", optJStr r.downloaded_by)]

/-- Parse the serialized audit log back into entries. -/
def parseEntries : List JsonV → Option (List AuditLogEntry)
  | [] => some []
  | .jobj d :: rest =>
    match AuditLogEntry.from_dict d, parseEntries rest with
    | some e, some es => some (e :: es)
    | _, _ => none
  | _ :: _ => none

/-- Parse a serialized data map back into scalars. -/
def parseDataMap : List (String × JsonV) → Option DataMap
  | [] => some []
  | (k, j) :: rest =>
    match j.toValue, parseDataMap rest with
    | some v, some vs => some ((k, v) :: vs)
    | _, _ => none

/-- Read an optional datetime-valued key (`fromisoformat(d[k]) if d.get(k)
else None`). -/
def getIso? (d : List (String × JsonV)) (k : String) : Option Datetime :=
  match dictGet d k with
  | some (.jstr v) => some ⟨v⟩
  | _ => none

/-- Review.from_dict: rebuild a review from its serialized form; fails
when a required key is missing or malformed (an exception in the
source). -/
def Review.from_dict (d : List (String × JsonV)) : Option Review :=
  match getStr? d "review_id", getStr? d "doc_type", getStr? d "status",
        dictGet d "data_json", getStr? d "created_by", getStr? d "created_at",
        dictGet d "audit_log" with
  | some rid, some dt, some st, some (.jobj dataj), some cb, some ca, some (.jarr logj) =>
    match ReviewStatus.ofValue st, parseDataMap dataj, parseEntries logj with
    | some status, some dataMap, some entries =>
      some {
        review_id := rid
        doc_type := dt
        status := status
        data_json := dataMap
        created_by := cb
        created_at := ⟨ca⟩
        audit_log := entries
        submitted_at := getIso? d "submitted_at"
        downloaded_at := getIso? d "downloaded_at"
        downloaded_by := getStr? d "downloaded_by" }
    | _, _, _ => none
  | _, _, _, _, _, _, _ => none

/-! Embedding of the download-token store (`src/api/services/storage.py`)
and the approval-code service (`src/api/services/supervisor_auth.py`).
Wall-clock instants compared for expiry are modelled as `Nat`; every
operation that consults the clock takes the current instant as an
argument (`datetime.utcnow()` in the source). -/

/-- DownloadToken dataclass. -/
structure DownloadToken where
  token : String
  review_id : String
  created_at : Nat
  expires_at : Nat
  used : Bool
  used_at : Option Nat
deriving DecidableEq, Repr

/-- DownloadToken.is_valid: not used and not past expiry. -/
def DownloadToken.is_valid (t : DownloadToken) (now : Nat) : Bool :=
  ¬ t.used && now < t.expires_at

/-- DownloadToken.mark_used. -/
def DownloadToken.mark_used (t : DownloadToken) (now : Nat) : DownloadToken :=
  { t with used := true, used_at := some now }

/-- The storage service's token map (`ReviewStorage._tokens`). -/
abbrev TokenStore := List (String × DownloadToken)

/-- ReviewStorage.validate_and_consume_token: fails closed unless the
token exists, is bound to the given review id and is valid; on success
marks it used in the store.  The flag and the updated store are
returned. -/
def validate_and_consume_token (store : TokenStore) (token_str review_id : String)
    (now : Nat) : Bool × TokenStore :=
  match dictGet store token_str with
  | none => (false, store)
  | some t =>
    if t.review_id ≠ review_id then (false, store)
    else if ¬ t.is_valid now then (false, store)
    else (true, dictSet store token_str (t.mark_used now))

/-- One validate_and_consume_token call: token string, review id, and the
wall-clock instant of the call. -/
structure ConsumeCall where
  token : String
  review_id : String
  now : Nat

/-- Run a sequence of validate_and_consume_token calls, collecting each
call's token string and returned flag. -/
def consumeTrace (store : TokenStore) : List ConsumeCall → List (String × Bool)
  | [] => []
  | c :: rest =>
    let (ok, store') := validate_and_consume_token store c.token c.review_id c.now
    (c.token, ok) :: consumeTrace store' rest

/-- ApprovalCode dataclass (`supervisor_auth.py`); `created_at` stays an
ISO string as in the source, the expiry instant is a `Nat` clock value. -/
structure ApprovalCode where
  code : String
  review_id : String
  supervisor_id : String
  created_at : String
  expires_at : Nat
  used : Bool
  used_at : Option Nat
deriving DecidableEq, Repr

/-- The auth service's code map (`SupervisorAuthService._approval_codes`). -/
abbrev CodeStore := List (String × ApprovalCode)

/-- SupervisorAuthService.use_approval_code: case-normalizes and trims the
code, fails when absent or already used, otherwise flips the used flag. -/
def use_approval_code (store : CodeStore) (code : String) (now : Nat) :
    Bool × CodeStore :=
  match dictGet store (pyStrip (pyUpper code)) with
  | none => (false, store)
  | some ac =>
    if ac.used then (false, store)
    else (true, dictSet store (pyStrip (pyUpper code)) { ac with used := true, used_at := some now })

/-- One use_approval_code call. -/
structure UseCodeCall where
  code : String
  now : Nat

/-- Run a sequence of use_approval_code calls, collecting each call's
normalized code and returned flag. -/
def useCodeTrace (store : CodeStore) : List UseCodeCall → List (String × Bool)
  | [] => []
  | c :: rest =>
    let (ok, store') := use_approval_code store c.code c.now
    (pyStrip (pyUpper c.code), ok) :: useCodeTrace store' rest

/-! Embedding of the Download operation
(`download_document` in `src/api/routes/manager.py`).  The review record
addressed by the request and the token store are the state; the rendering
hand-off to the external collaborator is an oracle argument, since its
outcome is decided outside this program. -/

/-- Outcome of the external document renderer (`docx_service.render`). -/
inductive RenderOutcome where
  | ok (artifact : String) (filename : String)
  | error (msg : String)

/-- Result of a Download request: an HTTP error or the file response. -/
inductive DownloadResult where
  | httpError (code : Nat) (detail : String)
  | file (artifact : String) (filename : String)
deriving DecidableEq, Repr

/-- download_document: status gate (403 unless SUBMITTED or DOWNLOADED),
then token validation-and-consumption (403 on failure), then rendering
(500 on failure, with the token already consumed), then mark_downloaded
(its failure flag is discarded) and the file response.  Returns the
result together with the review record and token store as persisted. -/
def download_document (r : Review) (store : TokenStore) (token : String)
    (render : RenderOutcome) (ip : Option String) (ua : Option String)
    (now : Nat) (t : Datetime) : DownloadResult × Review × TokenStore :=
  if r.status ≠ ReviewStatus.SUBMITTED ∧ r.status ≠ ReviewStatus.DOWNLOADED then
    (.httpError 403 "Only SUBMITTED reviews can be downloaded", r, store)
  else
    let (ok, store') := validate_and_consume_token store token r.review_id now
    if ¬ ok then (.httpError 403 "Invalid or expired download token", r, store')
    else
      match render with
      | .error msg => (.httpError 500 ("Failed to generate document: " ++ msg), r, store')
      | .ok artifact filename =>
        let r' := (r.mark_downloaded "supervisor" ip ua t).2
        (.file artifact filename, r', store')

/-! Embedding of `src/api/services/validation.py`.  A document type's
schema is passed as a value (the source loads and caches it from a JSON
file keyed by doc_type; the schema files are configuration data).  Field
kinds modelled: string, boolean and enum; the date and list kinds and the
regex-pattern and numeric-bound rules concern field shapes outside the
scalar value model and are not exercised by any property proved here. -/

/-- Kind of a regular schema field. -/
inductive FieldType where
  | stringT
  | booleanT
  | enumT
deriving DecidableEq, Repr

/-- Validation rules of a regular field (the length rules of
`_validate_rules`). -/
structure ValidationRules where
  min_length : Option Nat
  max_length : Option Nat
deriving DecidableEq, Repr

/-- A regular field's schema entry. -/
structure FieldSpec where
  ftype : FieldType
  editable : Bool
  required : Bool
  enum_values : List Value
  validation : ValidationRules
deriving DecidableEq, Repr

/-- A block's schema entry (`blocks` section); absent keys take the
defaults the source supplies via `config.get`. -/
structure BlockConfig where
  custom_field : Option String
  append_mode : AppendMode
  label : String
  custom_type : CustomFieldType
  max_length : Option Nat
  required : Bool
deriving DecidableEq, Repr

/-- A document type's loaded schema. -/
structure Schema where
  fields : List (String × FieldSpec)
  blocks : List (String × BlockConfig)

/-- Resolved custom-field name of a block
(`block_config.get("custom_field", f"{block_key}_custom")`). -/
def blockCustomField (block_key : String) (cfg : BlockConfig) : String :=
  cfg.custom_field.getD (block_key ++ "_custom")

/-- SchemaValidator.get_block_custom_fields. -/
def get_block_custom_fields (schema : Schema) : List String :=
  schema.blocks.map (fun p => blockCustomField p.1 p.2)

/-- The regular fields explicitly marked editable in the schema. -/
def declaredEditableFields (schema : Schema) : List String :=
  (schema.fields.filter (fun p => p.2.editable)).map (fun p => p.1)

/-- SchemaValidator.get_editable_fields: regular editable fields plus all
block custom fields. -/
def get_editable_fields (schema : Schema) : List String :=
  declaredEditableFields schema ++ get_block_custom_fields schema

/-- SchemaValidator.get_block_config: the configuration of the block whose
resolved custom-field name matches, if any. -/
def get_block_config (schema : Schema) (custom_field : String) : Option BlockConfig :=
  (schema.blocks.find? (fun p => blockCustomField p.1 p.2 = custom_field)).map (fun p => p.2)

/-- Python `str(value)` on a data-map scalar. -/
def pyStr : Value → String
  | .vStr s => s
  | .vInt i => toString i
  | .vBool b => if b then "True" else "False"

/-- SchemaValidator._validate_block_custom_field: required/empty gates,
string check, sanitization according to the block's content kind, then
the length bound applied to the sanitized result.  Returns (valid flag,
error message, value to store). -/
def validate_block_custom_field (field_name : String) (value : Value)
    (cfg : BlockConfig) : Bool × Option String × Value :=
  if value = Value.vStr "" then
    if cfg.required then
      (false, some ("Field " ++ field_name ++ " is required"), value)
    else (true, none, value)
  else
    match value with
    | .vStr s =>
      let max_length := cfg.max_length.getD 2000
      let sanitized :=
        if cfg.custom_type = CustomFieldType.richtext_limited then sanitize s
        else strip_all_tags s
      if sanitized.length > max_length then
        (false, some ("Field " ++ field_name ++ " is too long"), .vStr sanitized)
      else (true, none, .vStr sanitized)
    | _ => (false, some ("Field " ++ field_name ++ " must be a string"), value)

/-- SchemaValidator._validate_type on the modelled field kinds. -/
def validate_type (value : Value) (ftype : FieldType) (spec : FieldSpec) : Bool :=
  match ftype with
  | .stringT => match value with | .vStr _ => true | _ => false
  | .booleanT => match value with | .vBool _ => true | _ => false
  | .enumT => spec.enum_values.contains value

/-- SchemaValidator._validate_rules (the length rules; the value is
stringified first when it is not a string). -/
def validate_rules (value : Value) (rules : ValidationRules) : Bool :=
  let s := pyStr value
  (match rules.min_length with
   | some n => decide (n ≤ s.length)
   | none => true)
  && (match rules.max_length with
      | some n => decide (s.length ≤ n)
      | none => true)

/-- SchemaValidator.validate_field_value: block custom fields are routed
to the block validator; regular fields go through the required gate, the
empty-value pass, the type check and the rule check, returned unchanged. -/
def validate_field_value (schema : Schema) (field_name : String) (value : Value) :
    Bool × Option String × Value :=
  match get_block_config schema field_name with
  | some cfg => validate_block_custom_field field_name value cfg
  | none =>
    match dictGet schema.fields field_name with
    | none => (false, some ("Unknown field: " ++ field_name), value)
    | some spec =>
      if spec.required ∧ value = Value.vStr "" then
        (false, some ("Field " ++ field_name ++ " is required"), value)
      else if value = Value.vStr "" then (true, none, value)
      else if ¬ validate_type value spec.ftype spec then
        (false, some ("Field " ++ field_name ++ " has the wrong type"), value)
      else if ¬ validate_rules value spec.validation then
        (false, some ("Field " ++ field_name ++ " fails a validation rule"), value)
      else (true, none, value)

/-- ValidationResult dataclass. -/
structure ValidationResult where
  is_valid : Bool
  errors : List (String × String)
  filtered_data : DataMap
  unauthorized_fields : List String
deriving DecidableEq, Repr

/-- One iteration of the validate_update loop over the proposed changes:
non-editable fields go to the unauthorized list and never to the filtered
data; editable fields are validated and, when valid, stored sanitized. -/
def validateUpdateStep (schema : Schema) (editable : List String)
    (acc : ValidationResult) (item : String × Value) : ValidationResult :=
  if ¬ editable.contains item.1 then
    { acc with unauthorized_fields := acc.unauthorized_fields ++ [item.1] }
  else
    match validate_field_value schema item.1 item.2 with
    | (false, msg, _) =>
      { acc with errors := acc.errors ++ [(item.1, msg.getD "Validation failed")] }
    | (true, _, sanitized) =>
      { acc with filtered_data := dictSet acc.filtered_data item.1 sanitized }

/-- SchemaValidator.validate_update: partition the proposed changes by the
editable whitelist, validate the authorized ones, and report overall
validity (no per-field errors). -/
def validate_update (schema : Schema) (update_data : List (String × Value)) :
    ValidationResult :=
  let res := update_data.foldl (validateUpdateStep schema (get_editable_fields schema))
    { is_valid := true, errors := [], filtered_data := [], unauthorized_fields := [] }
  { res with is_valid := res.errors.isEmpty }

/-! Helper lemmas about the dict operations. -/

theorem dictGet_cons_self {α : Type} (m : List (String × α)) (k : String) (v : α) :
    dictGet ((k, v) :: m) k = some v := by
  simp [dictGet, List.find?]

theorem dictGet_cons_ne {α : Type} (m : List (String × α)) (k k' : String) (v : α)
    (h : k ≠ k') : dictGet ((k, v) :: m) k' = dictGet m k' := by
  simp [dictGet, List.find?, h]

theorem find_map_set {α : Type} (m : List (String × α)) (k : String) (v : α)
    (h : m.any (fun p => p.1 = k) = true) :
    (m.map (fun p => if p.1 = k then (k, v) else p)).find? (fun p => p.1 = k)
      = some (k, v) := by
  induction m with
  | nil => simp at h
  | cons a m ih =>
    simp only [List.any_cons, Bool.or_eq_true, decide_eq_true_eq] at h
    by_cases hk : a.1 = k
    · simp [List.find?, hk]
    · have h' := h.resolve_left hk
      simp only [List.map_cons, if_neg hk, List.find?]
      simp [hk, ih h']

theorem find_map_set_ne {α : Type} (m : List (String × α)) (k k' : String) (v : α)
    (h : k' ≠ k) :
    (m.map (fun p => if p.1 = k then (k, v) else p)).find? (fun p => p.1 = k')
      = m.find? (fun p => p.1 = k') := by
  induction m with
  | nil => simp
  | cons a m ih =>
    by_cases hk : a.1 = k
    · have h2 : a.1 ≠ k' := by rw [hk]; exact Ne.symm h
      have e1 : decide (k = k') = false := by simp [Ne.symm h]
      have e2 : decide (a.1 = k') = false := by simp [h2]
      simp only [List.map_cons, if_pos hk, List.find?, e1, e2]
      exact ih
    · simp only [List.map_cons, if_neg hk, List.find?]
      by_cases hk' : a.1 = k'
      · simp [hk']
      · simp [hk', ih]

theorem dictGet_dictSet_self {α : Type} (m : List (String × α)) (k : String) (v : α) :
    dictGet (dictSet m k v) k = some v := by
  unfold dictSet
  by_cases h : m.any (fun p => p.1 = k) = true
  · simp only [if_pos h, dictGet, find_map_set m k v h, Option.map_some']
  · simp only [if_neg h, dictGet]
    rw [List.find?_append]
    have : m.find? (fun p => p.1 = k) = none := by
      rw [List.find?_eq_none]
      intro x hx
      by_contra hc
      simp only [decide_eq_true_eq] at hc
      exact h (List.any_eq_true.mpr ⟨x, hx, by simp [hc]⟩)
    simp [this, List.find?]

theorem dictGet_dictSet_ne {α : Type} (m : List (String × α)) (k k' : String) (v : α)
    (h : k' ≠ k) : dictGet (dictSet m k v) k' = dictGet m k' := by
  unfold dictSet
  by_cases hm : m.any (fun p => p.1 = k) = true
  · simp only [if_pos hm, dictGet, find_map_set_ne m k k' v h]
  · simp only [if_neg hm, dictGet]
    rw [List.find?_append]
    have : List.find? (fun p => p.1 = k') [(k, v)] = none := by
      simp [List.find?, Ne.symm h]
    cases hf : m.find? (fun p => p.1 = k') <;> simp [this, hf]

/-! Theorems about the block composition and the sanitizers. -/

/-- C6 counterexample: the claim states that for non-blank custom content
the result is the base, the separator and the custom content verbatim,
but combine_content strips the custom content first, so custom content
with surrounding whitespace is not appended verbatim. -/
theorem combine_content_counterexample :
    combine_content "a" " x " AppendMode.newline "" ≠ "a" ++ "\n" ++ " x " := by decide

/-- C6 (amended): blank custom content returns the base verbatim for every
mode; otherwise the result appends the whitespace-stripped custom content
after the mode's separator, with the labelled mode falling back to the
newline behavior when no label is configured. -/
theorem combine_content_spec (base custom label : String) :
    (pyStrip custom = "" → ∀ mode, combine_content base custom mode label = base) ∧
    (pyStrip custom ≠ "" →
      combine_content base custom AppendMode.newline label = base ++ "\n" ++ pyStrip custom ∧
      combine_content base custom AppendMode.inline label = base ++ " " ++ pyStrip custom ∧
      (label ≠ "" → combine_content base custom AppendMode.labelled label
          = base ++ "\n" ++ label ++ " " ++ pyStrip custom) ∧
      (label = "" → combine_content base custom AppendMode.labelled label
          = base ++ "\n" ++ pyStrip custom)) := by
  unfold combine_content
  constructor
  · intro h mode
    rw [if_pos h]
  · intro h
    refine ⟨?_, ?_, ?_, ?_⟩
    · simp only [if_neg h]
    · simp only [if_neg h]
    · intro hl
      simp only [if_neg h, if_neg hl]
    · intro hl
      simp only [if_neg h, if_pos hl]

/-- Closed instance of combine_content_spec with every hypothesis
discharged on concrete input. -/
theorem combine_content_spec_witness :
    combine_content "B" " y " AppendMode.inline "L:" = "B" ++ " " ++ pyStrip " y " :=
  ((combine_content_spec "B" " y " "L:").2 (by decide)).2.1

/-- C1: HtmlSanitizer.sanitize removes only the markup of a disallowed
tag, not its text content; on the input from the spec the inner text of
the script element survives, so the documented result is not produced
(the repository's own test asserts the opposite). -/
theorem sanitize_hoists_disallowed_content :
    sanitize "<script>alert(1)</script><b>ok</b>" = "alert(1)<b>ok</b>" ∧
    sanitize "<script>alert(1)</script><b>ok</b>" ≠ "<b>ok</b>" := by
  constructor
  · decide
  · decide

/-- C10: strip_all_tags removes tag substrings first, then decodes HTML
character entities, then strips surrounding whitespace; because decoding
happens after tag removal, encoded entities produce literal angle
brackets in the result. -/
theorem strip_all_tags_order_and_entities :
    (∀ s, strip_all_tags s = pyStrip (unescape (removeTags s))) ∧
    strip_all_tags "&lt;b&gt;" = "<b>" ∧
    (strip_all_tags "&lt;b&gt;").data.contains '<' = true ∧
    (strip_all_tags "&lt;b&gt;").data.contains '>' = true := by
  refine ⟨fun s => rfl, by decide, by decide, by decide⟩

/-! Lemmas about the review state machine. -/

theorem update_field_not_editable (r : Review) (h : r.can_edit = false)
    (f : String) (v : Value) (a : String) (ip : Option String) (t : Datetime) :
    r.update_field f v a ip t = (false, r) := by
  simp [Review.update_field, h]

theorem update_field_status (r : Review) (f : String) (v : Value) (a : String)
    (ip : Option String) (t : Datetime) :
    (r.update_field f v a ip t).2.status = r.status := by
  unfold Review.update_field
  split
  · rfl
  · simp [Review.add_audit_log]

theorem update_field_len_le (r : Review) (f : String) (v : Value) (a : String)
    (ip : Option String) (t : Datetime) :
    r.audit_log.length ≤ (r.update_field f v a ip t).2.audit_log.length := by
  unfold Review.update_field
  split
  · exact Nat.le_refl _
  · simp [Review.add_audit_log]

theorem submit_status_rank (r : Review) (a : String) (ip : Option String) (t : Datetime) :
    r.status.rank ≤ (r.submit a ip t).2.status.rank ∧
    r.audit_log.length ≤ (r.submit a ip t).2.audit_log.length := by
  unfold Review.submit
  split
  · exact ⟨Nat.le_refl _, Nat.le_refl _⟩
  · rename_i hc
    simp only [Review.can_submit, decide_eq_true_eq, not_not] at hc
    constructor
    · simp [hc, Review.add_audit_log, ReviewStatus.rank]
    · simp [Review.add_audit_log]

theorem mark_downloaded_status_rank (r : Review) (a : String) (ip ua : Option String)
    (t : Datetime) :
    r.status.rank ≤ (r.mark_downloaded a ip ua t).2.status.rank ∧
    r.audit_log.length ≤ (r.mark_downloaded a ip ua t).2.audit_log.length := by
  unfold Review.mark_downloaded
  split
  · exact ⟨Nat.le_refl _, Nat.le_refl _⟩
  · rename_i hc
    simp only [Review.can_download, decide_eq_true_eq, not_not] at hc
    constructor
    · simp [hc, Review.add_audit_log, ReviewStatus.rank]
    · simp [Review.add_audit_log]

theorem applyOp_rank_le (r : Review) (op : ReviewOp) :
    r.status.rank ≤ (applyOp r op).status.rank := by
  cases op with
  | update f v a ip t =>
    simp only [applyOp, update_field_status]
    exact Nat.le_refl _
  | logUnauthorized f v a ip t =>
    simp [applyOp, Review.log_unauthorized_attempt, Review.add_audit_log]
  | submitOp a ip t =>
    simp only [applyOp]
    exact (submit_status_rank r a ip t).1
  | markDownloadedOp a ip ua t =>
    simp only [applyOp]
    exact (mark_downloaded_status_rank r a ip ua t).1

theorem applyOp_len_le (r : Review) (op : ReviewOp) :
    r.audit_log.length ≤ (applyOp r op).audit_log.length := by
  cases op with
  | update f v a ip t =>
    simp only [applyOp]
    exact update_field_len_le r f v a ip t
  | logUnauthorized f v a ip t =>
    simp [applyOp, Review.log_unauthorized_attempt, Review.add_audit_log]
  | submitOp a ip t =>
    simp only [applyOp]
    exact (submit_status_rank r a ip t).2
  | markDownloadedOp a ip ua t =>
    simp only [applyOp]
    exact (mark_downloaded_status_rank r a ip ua t).2

theorem applyOp_len_succ (r : Review) (op : ReviewOp) (h : opSucceeds r op = true) :
    (applyOp r op).audit_log.length = r.audit_log.length + 1 := by
  cases op with
  | update f v a ip t =>
    simp only [opSucceeds] at h
    simp only [applyOp]
    unfold Review.update_field
    rw [if_neg (by simp [h])]
    simp [Review.add_audit_log]
  | logUnauthorized f v a ip t =>
    simp [applyOp, Review.log_unauthorized_attempt, Review.add_audit_log]
  | submitOp a ip t =>
    simp only [opSucceeds] at h
    simp only [applyOp]
    unfold Review.submit
    rw [if_neg (by simp [h])]
    simp [Review.add_audit_log]
  | markDownloadedOp a ip ua t =>
    simp only [opSucceeds] at h
    simp only [applyOp]
    unfold Review.mark_downloaded
    rw [if_neg (by simp [h])]
    simp [Review.add_audit_log]

theorem applyOp_status_cases (r : Review) (op : ReviewOp) :
    (applyOp r op).status = r.status ∨
    (r.status = ReviewStatus.DRAFT ∧ (applyOp r op).status = ReviewStatus.SUBMITTED) ∨
    (r.status = ReviewStatus.SUBMITTED ∧ (applyOp r op).status = ReviewStatus.DOWNLOADED) := by
  cases op with
  | update f v a ip t =>
    simp only [applyOp]
    exact Or.inl (update_field_status r f v a ip t)
  | logUnauthorized f v a ip t =>
    exact Or.inl (by simp [applyOp, Review.log_unauthorized_attempt, Review.add_audit_log])
  | submitOp a ip t =>
    simp only [applyOp]
    unfold Review.submit
    split
    · exact Or.inl rfl
    · rename_i hc
      simp only [Review.can_submit, decide_eq_true_eq, not_not] at hc
      exact Or.inr (Or.inl ⟨hc, by simp [Review.add_audit_log]⟩)
  | markDownloadedOp a ip ua t =>
    simp only [applyOp]
    unfold Review.mark_downloaded
    split
    · exact Or.inl rfl
    · rename_i hc
      simp only [Review.can_download, decide_eq_true_eq, not_not] at hc
      exact Or.inr (Or.inr ⟨hc, by simp [Review.add_audit_log]⟩)

theorem applyOps_cons (r : Review) (op : ReviewOp) (ops : List ReviewOp) :
    applyOps r (op :: ops) = applyOps (applyOp r op) ops := rfl

theorem applyOps_rank_le (r : Review) (ops : List ReviewOp) :
    r.status.rank ≤ (applyOps r ops).status.rank := by
  induction ops generalizing r with
  | nil => exact Nat.le_refl _
  | cons op ops ih =>
    rw [applyOps_cons]
    exact Nat.le_trans (applyOp_rank_le r op) (ih (applyOp r op))

theorem applyOps_len_le (r : Review) (ops : List ReviewOp) :
    r.audit_log.length ≤ (applyOps r ops).audit_log.length := by
  induction ops generalizing r with
  | nil => exact Nat.le_refl _
  | cons op ops ih =>
    rw [applyOps_cons]
    exact Nat.le_trans (applyOp_len_le r op) (ih (applyOp r op))

/-! Concrete sample states used to instantiate the theorems. -/

/-- A concrete creation audit entry. -/
def sampleEntry : AuditLogEntry := {
  timestamp := "2024-01-01T00:00:00"
  action := "create"
  actor := "employee_1"
  field_name := none
  old_value := none
  new_value := none
  ip_address := none
  user_agent := none
  details := some "Review created for doc_type=carta_manifestacion" }

/-- A concrete review still in DRAFT. -/
def sampleDraft : Review := {
  review_id := "r1"
  doc_type := "carta_manifestacion"
  status := .DRAFT
  data_json := [("Nombre_Cliente", .vStr "ACME Corp")]
  created_by := "employee_1"
  created_at := ⟨"2024-01-01T00:00:00"⟩
  audit_log := [sampleEntry]
  submitted_at := none
  downloaded_at := none
  downloaded_by := none }

/-- A concrete SUBMITTED review. -/
def sampleSubmitted : Review := {
  review_id := "r1"
  doc_type := "carta_manifestacion"
  status := .SUBMITTED
  data_json := [("Nombre_Cliente", .vStr "ACME Corp")]
  created_by := "employee_1"
  created_at := ⟨"2024-01-01T00:00:00"⟩
  audit_log := [sampleEntry]
  submitted_at := some ⟨"2024-01-02T00:00:00"⟩
  downloaded_at := none
  downloaded_by := none }

/-- A concrete DOWNLOADED review. -/
def sampleDownloaded : Review := {
  review_id := "r1"
  doc_type := "carta_manifestacion"
  status := .DOWNLOADED
  data_json := [("Nombre_Cliente", .vStr "ACME Corp")]
  created_by := "employee_1"
  created_at := ⟨"2024-01-01T00:00:00"⟩
  audit_log := [sampleEntry]
  submitted_at := some ⟨"2024-01-02T00:00:00"⟩
  downloaded_at := some ⟨"2024-01-03T00:00:00"⟩
  downloaded_by := some "supervisor" }

/-- A concrete unused download token bound to the sample review. -/
def sampleToken : DownloadToken := {
  token := "tok1"
  review_id := "r1"
  created_at := 0
  expires_at := 300
  used := false
  used_at := none }

/-- A token store holding only the sample token. -/
def sampleStore : TokenStore := [("tok1", sampleToken)]

theorem applyOps_updates_frozen (r : Review) (h : r.status ≠ ReviewStatus.DRAFT)
    (calls : List ReviewOp) (hc : ∀ op ∈ calls, isUpdateOp op = true) :
    applyOps r calls = r := by
  induction calls with
  | nil => rfl
  | cons op rest ih =>
    have hop := hc op (List.mem_cons_self _ _)
    cases op with
    | update f v a ip t =>
      have hstep : applyOp r (ReviewOp.update f v a ip t) = r := by
        simp only [applyOp]
        rw [update_field_not_editable r (by simp [Review.can_edit, h]) f v a ip t]
      rw [applyOps_cons, hstep]
      exact ih (fun o ho => hc o (List.mem_cons_of_mem _ ho))
    | logUnauthorized f v a ip t => simp [isUpdateOp] at hop
    | submitOp a ip t => simp [isUpdateOp] at hop
    | markDownloadedOp a ip ua t => simp [isUpdateOp] at hop

/-- C4: a review that is no longer in DRAFT (SUBMITTED or DOWNLOADED)
rejects every update_field call with the failure flag and is returned
completely unchanged — in particular its data map is byte-for-byte the
one frozen at submission, across any sequence of update_field calls —
and only a DRAFT review ever has its data map changed by update_field. -/
theorem update_field_requires_draft (r : Review) (h : r.status ≠ ReviewStatus.DRAFT) :
    (∀ f v a ip t, r.update_field f v a ip t = (false, r)) ∧
    (∀ calls : List ReviewOp, (∀ op ∈ calls, isUpdateOp op = true) →
        applyOps r calls = r) ∧
    (∀ (r' : Review) f v a ip t,
        (Review.update_field r' f v a ip t).2.data_json ≠ r'.data_json →
        r'.status = ReviewStatus.DRAFT) := by
  refine ⟨?_, applyOps_updates_frozen r h, ?_⟩
  · intro f v a ip t
    exact update_field_not_editable r (by simp [Review.can_edit, h]) f v a ip t
  · intro r' f v a ip t hne
    by_cases hd : r'.status = ReviewStatus.DRAFT
    · exact hd
    · rw [update_field_not_editable r' (by simp [Review.can_edit, hd]) f v a ip t] at hne
      exact absurd rfl hne

/-- Closed instance of update_field_requires_draft at a SUBMITTED review. -/
theorem update_field_requires_draft_witness :
    Review.update_field sampleSubmitted "Nombre_Cliente" (Value.vStr "HACK") "employee_1"
      none ⟨"2024-01-05T00:00:00"⟩ = (false, sampleSubmitted) :=
  (update_field_requires_draft sampleSubmitted (by decide)).1 "Nombre_Cliente"
    (Value.vStr "HACK") "employee_1" none ⟨"2024-01-05T00:00:00"⟩

/-- C5: across every sequence of update_field, log_unauthorized_attempt,
submit and mark_downloaded calls, the status rank along
DRAFT → SUBMITTED → DOWNLOADED and the audit-log length are
non-decreasing; a single step either keeps the status or advances it by
exactly one stage (no reversal, no skipping); every successful operation
appends exactly one audit entry; submit succeeds exactly from DRAFT and
mark_downloaded exactly from SUBMITTED. -/
theorem review_state_machine (r : Review) :
    (∀ ops : List ReviewOp,
        r.status.rank ≤ (applyOps r ops).status.rank ∧
        r.audit_log.length ≤ (applyOps r ops).audit_log.length) ∧
    (∀ op : ReviewOp,
        (applyOp r op).status = r.status ∨
        (r.status = ReviewStatus.DRAFT ∧ (applyOp r op).status = ReviewStatus.SUBMITTED) ∨
        (r.status = ReviewStatus.SUBMITTED ∧ (applyOp r op).status = ReviewStatus.DOWNLOADED)) ∧
    (∀ op : ReviewOp, opSucceeds r op = true →
        (applyOp r op).audit_log.length = r.audit_log.length + 1) ∧
    (∀ a ip t, ((r.submit a ip t).1 = true ↔ r.status = ReviewStatus.DRAFT)) ∧
    (∀ a ip ua t, ((r.mark_downloaded a ip ua t).1 = true ↔ r.status = ReviewStatus.SUBMITTED)) := by
  refine ⟨fun ops => ⟨applyOps_rank_le r ops, applyOps_len_le r ops⟩,
          applyOp_status_cases r, applyOp_len_succ r, ?_, ?_⟩
  · intro a ip t
    unfold Review.submit
    split
    · rename_i hc
      simp only [Review.can_submit, decide_eq_true_eq] at hc
      simp [hc]
    · rename_i hc
      simp only [Review.can_submit, decide_eq_true_eq, not_not] at hc
      simp [hc]
  · intro a ip ua t
    unfold Review.mark_downloaded
    split
    · rename_i hc
      simp only [Review.can_download, decide_eq_true_eq] at hc
      simp [hc]
    · rename_i hc
      simp only [Review.can_download, decide_eq_true_eq, not_not] at hc
      simp [hc]

/-- Closed instance of review_state_machine: a successful submit on the
sample DRAFT review appends exactly one audit entry. -/
theorem review_state_machine_witness :
    (applyOp sampleDraft (ReviewOp.submitOp "employee_1" none ⟨"2024-01-02T00:00:00"⟩)).audit_log.length
      = sampleDraft.audit_log.length + 1 :=
  (review_state_machine sampleDraft).2.2.1
    (ReviewOp.submitOp "employee_1" none ⟨"2024-01-02T00:00:00"⟩) (by decide)

/-! Single-use lemmas for download tokens and approval codes. -/

/-- Number of true results recorded for a given key in a call trace. -/
def countTrueFor (t : String) : List (String × Bool) → Nat
  | [] => 0
  | p :: rest => (if p.1 = t ∧ p.2 = true then 1 else 0) + countTrueFor t rest

/-- A token string that can never again be consumed from this store:
absent, or present and already marked used. -/
def tokenDead (store : TokenStore) (t : String) : Prop :=
  ∀ tok, dictGet store t = some tok → tok.used = true

theorem consume_false_of_dead (store : TokenStore) (t rid : String) (now : Nat)
    (h : tokenDead store t) :
    validate_and_consume_token store t rid now = (false, store) := by
  unfold validate_and_consume_token
  split
  · rfl
  · rename_i tok hg
    have hu := h tok hg
    by_cases hr : tok.review_id ≠ rid
    · rw [if_pos hr]
    · rw [if_neg hr, if_pos]
      simp [DownloadToken.is_valid, hu]

theorem consume_preserves_dead (store : TokenStore) (ct crid : String) (cnow : Nat)
    (t : String) (h : tokenDead store t) :
    tokenDead (validate_and_consume_token store ct crid cnow).2 t := by
  unfold validate_and_consume_token
  split
  · exact h
  · rename_i tok hg
    by_cases hr : tok.review_id ≠ crid
    · rw [if_pos hr]
      exact h
    · rw [if_neg hr]
      by_cases hv : tok.is_valid cnow = true
      · rw [if_neg (by simp [hv])]
        intro tk hg2
        by_cases hkt : t = ct
        · subst hkt
          rw [dictGet_dictSet_self] at hg2
          cases hg2
          rfl
        · rw [dictGet_dictSet_ne store ct t _ hkt] at hg2
          exact h tk hg2
      · rw [if_pos (by simp [hv])]
        exact h

theorem consume_true_dead (store : TokenStore) (t rid : String) (now : Nat)
    (h : (validate_and_consume_token store t rid now).1 = true) :
    tokenDead (validate_and_consume_token store t rid now).2 t := by
  unfold validate_and_consume_token at h ⊢
  split at h
  · simp at h
  · rename_i tok hg
    by_cases hr : tok.review_id ≠ rid
    · rw [if_pos hr] at h
      simp at h
    · rw [if_neg hr] at h ⊢
      by_cases hv : tok.is_valid now = true
      · rw [if_neg (by simp [hv])]
        intro tk hg2
        rw [dictGet_dictSet_self] at hg2
        cases hg2
        rfl
      · rw [if_pos (by simp [hv])] at h
        simp at h

theorem consumeTrace_cons (store : TokenStore) (c : ConsumeCall) (rest : List ConsumeCall) :
    consumeTrace store (c :: rest)
      = (c.token, (validate_and_consume_token store c.token c.review_id c.now).1)
        :: consumeTrace (validate_and_consume_token store c.token c.review_id c.now).2 rest := rfl

theorem consumeTrace_dead (store : TokenStore) (calls : List ConsumeCall) (t : String)
    (h : tokenDead store t) :
    countTrueFor t (consumeTrace store calls) = 0 := by
  induction calls generalizing store with
  | nil => rfl
  | cons c rest ih =>
    rw [consumeTrace_cons]
    by_cases hk : c.token = t
    · subst hk
      rw [consume_false_of_dead store c.token c.review_id c.now h]
      simp only [countTrueFor]
      rw [ih store h]
      simp
    · simp only [countTrueFor, if_neg (by simp [hk] : ¬(c.token = t ∧ _ = true))]
      rw [ih _ (consume_preserves_dead store c.token c.review_id c.now t h)]

theorem consumeTrace_at_most_once (store : TokenStore) (calls : List ConsumeCall)
    (t : String) : countTrueFor t (consumeTrace store calls) ≤ 1 := by
  induction calls generalizing store with
  | nil => simp [consumeTrace, countTrueFor]
  | cons c rest ih =>
    rw [consumeTrace_cons]
    by_cases hk : c.token = t
    · subst hk
      cases hok : (validate_and_consume_token store c.token c.review_id c.now).1 with
      | false =>
        simp only [countTrueFor, hok]
        simpa using ih _
      | true =>
        have hdead := consume_true_dead store c.token c.review_id c.now hok
        have h0 := consumeTrace_dead _ rest c.token hdead
        simp [countTrueFor, h0]
    · simp only [countTrueFor, if_neg (by simp [hk] : ¬(c.token = t ∧ _ = true))]
      simpa using ih _

/-- A normalized code string that can never again be used from this
store: absent, or present and already marked used. -/
def codeDead (store : CodeStore) (c : String) : Prop :=
  ∀ ac, dictGet store c = some ac → ac.used = true

theorem use_code_false_of_dead (store : CodeStore) (code : String) (now : Nat)
    (h : codeDead store (pyStrip (pyUpper code))) :
    use_approval_code store code now = (false, store) := by
  unfold use_approval_code
  split
  · rfl
  · rename_i ac hg
    rw [if_pos (h ac hg)]

theorem use_code_preserves_dead (store : CodeStore) (code : String) (now : Nat)
    (c : String) (h : codeDead store c) :
    codeDead (use_approval_code store code now).2 c := by
  unfold use_approval_code
  split
  · exact h
  · rename_i ac hg
    by_cases hu : ac.used = true
    · rw [if_pos hu]
      exact h
    · rw [if_neg hu]
      intro ac2 hg2
      by_cases hkc : c = pyStrip (pyUpper code)
      · subst hkc
        rw [dictGet_dictSet_self] at hg2
        cases hg2
        rfl
      · rw [dictGet_dictSet_ne _ _ _ _ hkc] at hg2
        exact h ac2 hg2

theorem use_code_true_dead (store : CodeStore) (code : String) (now : Nat)
    (h : (use_approval_code store code now).1 = true) :
    codeDead (use_approval_code store code now).2 (pyStrip (pyUpper code)) := by
  unfold use_approval_code at h ⊢
  split at h
  · simp at h
  · rename_i ac hg
    by_cases hu : ac.used = true
    · rw [if_pos hu] at h
      simp at h
    · rw [if_neg hu] at h ⊢
      intro ac2 hg2
      rw [dictGet_dictSet_self] at hg2
      cases hg2
      rfl

theorem useCodeTrace_cons (store : CodeStore) (c : UseCodeCall) (rest : List UseCodeCall) :
    useCodeTrace store (c :: rest)
      = (pyStrip (pyUpper c.code), (use_approval_code store c.code c.now).1)
        :: useCodeTrace (use_approval_code store c.code c.now).2 rest := rfl

theorem useCodeTrace_dead (store : CodeStore) (calls : List UseCodeCall) (c : String)
    (h : codeDead store c) :
    countTrueFor c (useCodeTrace store calls) = 0 := by
  induction calls generalizing store with
  | nil => rfl
  | cons u rest ih =>
    rw [useCodeTrace_cons]
    by_cases hk : pyStrip (pyUpper u.code) = c
    · rw [← hk] at h
      rw [use_code_false_of_dead store u.code u.now h]
      simp only [countTrueFor]
      rw [ih store (hk ▸ h)]
      simp
    · simp only [countTrueFor, if_neg (by simp [hk] : ¬(pyStrip (pyUpper u.code) = c ∧ _ = true))]
      rw [ih _ (use_code_preserves_dead store u.code u.now c h)]

theorem useCodeTrace_at_most_once (store : CodeStore) (calls : List UseCodeCall)
    (c : String) : countTrueFor c (useCodeTrace store calls) ≤ 1 := by
  induction calls generalizing store with
  | nil => simp [useCodeTrace, countTrueFor]
  | cons u rest ih =>
    rw [useCodeTrace_cons]
    by_cases hk : pyStrip (pyUpper u.code) = c
    · cases hok : (use_approval_code store u.code u.now).1 with
      | false =>
        simp only [countTrueFor, hok]
        simpa using ih _
      | true =>
        have hdead := use_code_true_dead store u.code u.now hok
        have h0 := useCodeTrace_dead _ rest _ (hk ▸ hdead)
        simp [countTrueFor, hk, h0]
    · simp only [countTrueFor, if_neg (by simp [hk] : ¬(pyStrip (pyUpper u.code) = c ∧ _ = true))]
      simpa using ih _

/-- C3: across every sequence of calls, validate_and_consume_token
returns true at most once for any given token string (regardless of the
review ids and clock instants presented), and immediately after a true
result every further call with the same token returns false; likewise
use_approval_code returns true at most once for any given code. -/
theorem single_use_credentials :
    (∀ (store : TokenStore) (calls : List ConsumeCall) (t : String),
        countTrueFor t (consumeTrace store calls) ≤ 1) ∧
    (∀ (store : CodeStore) (calls : List UseCodeCall) (c : String),
        countTrueFor c (useCodeTrace store calls) ≤ 1) ∧
    (∀ (store : TokenStore) (t rid rid' : String) (now now' : Nat),
        (validate_and_consume_token store t rid now).1 = true →
        (validate_and_consume_token
            (validate_and_consume_token store t rid now).2 t rid' now').1 = false) := by
  refine ⟨consumeTrace_at_most_once, useCodeTrace_at_most_once, ?_⟩
  intro store t rid rid' now now' h
  rw [consume_false_of_dead _ t rid' now' (consume_true_dead store t rid now h)]

/-- Closed instance of single_use_credentials: after the sample token is
consumed once, the identical call returns false. -/
theorem single_use_credentials_witness :
    (validate_and_consume_token
        (validate_and_consume_token sampleStore "tok1" "r1" 1).2 "tok1" "r1" 2).1 = false :=
  single_use_credentials.2.2 sampleStore "tok1" "r1" "r1" 1 2 (by decide)

/-- C2 counterexample: with the sample SUBMITTED review and a valid bound
token, a Download whose rendering step fails leaves the review SUBMITTED
as the claim states, but the token has already been consumed, so the
claimed retry with the same token is rejected instead of succeeding. -/
theorem download_render_failure_counterexample :
    (download_document sampleSubmitted sampleStore "tok1" (.error "boom")
        none none 1 ⟨"2024-01-03T00:00:00"⟩).2.1.status = ReviewStatus.SUBMITTED ∧
    (dictGet (download_document sampleSubmitted sampleStore "tok1" (.error "boom")
        none none 1 ⟨"2024-01-03T00:00:00"⟩).2.2 "tok1").map DownloadToken.used
      = some true ∧
    (download_document
        (download_document sampleSubmitted sampleStore "tok1" (.error "boom")
            none none 1 ⟨"2024-01-03T00:00:00"⟩).2.1
        (download_document sampleSubmitted sampleStore "tok1" (.error "boom")
            none none 1 ⟨"2024-01-03T00:00:00"⟩).2.2
        "tok1" (.ok "artifact" "doc.docx") none none 2 ⟨"2024-01-03T00:01:00"⟩).1
      = DownloadResult.httpError 403 "Invalid or expired download token" := by
  refine ⟨by decide, by decide, by decide⟩

/-- C2 (amended): when rendering fails during Download of a SUBMITTED
review presented with a valid bound token, the request returns the
rendering error, the review is unchanged (still SUBMITTED, not marked
downloaded), but the token has already been marked used by the
validate-and-consume step that precedes rendering, so a retry with the
same token fails. -/
theorem download_render_failure (r : Review) (store : TokenStore) (tok : String)
    (tokRec : DownloadToken) (msg : String) (ip ua : Option String) (now : Nat)
    (t : Datetime)
    (hs : r.status = ReviewStatus.SUBMITTED)
    (hg : dictGet store tok = some tokRec)
    (hb : tokRec.review_id = r.review_id)
    (hv : tokRec.is_valid now = true) :
    download_document r store tok (.error msg) ip ua now t
      = (.httpError 500 ("Failed to generate document: " ++ msg), r,
         dictSet store tok (tokRec.mark_used now)) ∧
    (validate_and_consume_token
        (download_document r store tok (.error msg) ip ua now t).2.2 tok
        r.review_id now).1 = false := by
  have hconsume : validate_and_consume_token store tok r.review_id now
      = (true, dictSet store tok (tokRec.mark_used now)) := by
    unfold validate_and_consume_token
    rw [hg]
    dsimp only
    rw [if_neg (by simp [hb]), if_neg (by simp [hv])]
  have hmain : download_document r store tok (.error msg) ip ua now t
      = (.httpError 500 ("Failed to generate document: " ++ msg), r,
         dictSet store tok (tokRec.mark_used now)) := by
    unfold download_document
    rw [if_neg (by simp [hs])]
    rw [hconsume]
    simp
  refine ⟨hmain, ?_⟩
  rw [hmain]
  have hdead : tokenDead (dictSet store tok (tokRec.mark_used now)) tok := by
    intro tk hg2
    rw [dictGet_dictSet_self] at hg2
    cases hg2
    rfl
  rw [consume_false_of_dead _ tok r.review_id now hdead]

/-- Closed instance of download_render_failure on the sample state. -/
theorem download_render_failure_witness :
    download_document sampleSubmitted sampleStore "tok1" (.error "io")
        none none 1 ⟨"2024-01-03T00:00:00"⟩
      = (.httpError 500 "Failed to generate document: io", sampleSubmitted,
         dictSet sampleStore "tok1" (sampleToken.mark_used 1)) :=
  (download_render_failure sampleSubmitted sampleStore "tok1" sampleToken "io"
      none none 1 ⟨"2024-01-03T00:00:00"⟩ (by decide) (by decide) (by decide) (by decide)).1

/-- C9: mark_downloaded on a review that is not SUBMITTED returns the
failure flag and the review completely unchanged (status, timestamps,
downloader, data map and audit log all keep their prior values); in
particular a repeat Download of an already-DOWNLOADED review with a fresh
valid bound token serves the artifact again while consuming the token and
leaving every field of the review, including its audit log, untouched. -/
theorem mark_downloaded_frame (r : Review) (h : r.status ≠ ReviewStatus.SUBMITTED) :
    (∀ a ip ua t, r.mark_downloaded a ip ua t = (false, r)) ∧
    (r.status = ReviewStatus.DOWNLOADED →
      ∀ (store : TokenStore) (tok : String) (tokRec : DownloadToken) (art fn : String)
        (ip ua : Option String) (now : Nat) (t : Datetime),
        dictGet store tok = some tokRec → tokRec.review_id = r.review_id →
        tokRec.is_valid now = true →
        download_document r store tok (.ok art fn) ip ua now t
          = (.file art fn, r, dictSet store tok (tokRec.mark_used now))) := by
  have hmark : ∀ a ip ua t, r.mark_downloaded a ip ua t = (false, r) := by
    intro a ip ua t
    unfold Review.mark_downloaded
    rw [if_pos (by simp [Review.can_download, h])]
  refine ⟨hmark, ?_⟩
  intro hd store tok tokRec art fn ip ua now t hg hb hv
  have hconsume : validate_and_consume_token store tok r.review_id now
      = (true, dictSet store tok (tokRec.mark_used now)) := by
    unfold validate_and_consume_token
    rw [hg]
    dsimp only
    rw [if_neg (by simp [hb]), if_neg (by simp [hv])]
  unfold download_document
  rw [if_neg (by simp [hd])]
  rw [hconsume]
  simp [hmark]

/-- Closed instance of mark_downloaded_frame: a repeat download of the
sample DOWNLOADED review with a fresh valid token. -/
theorem mark_downloaded_frame_witness :
    download_document sampleDownloaded sampleStore "tok1" (.ok "artifact" "doc.docx")
        none none 1 ⟨"2024-01-04T00:00:00"⟩
      = (.file "artifact" "doc.docx", sampleDownloaded,
         dictSet sampleStore "tok1" (sampleToken.mark_used 1)) :=
  (mark_downloaded_frame sampleDownloaded (by decide)).2 (by decide) sampleStore "tok1"
    sampleToken "artifact" "doc.docx" none none 1 ⟨"2024-01-04T00:00:00"⟩
    (by decide) (by decide) (by decide)

/-! Whitelist lemmas for the validator. -/

theorem dictHas_eq_isSome {α : Type} (m : List (String × α)) (k : String) :
    dictHas m k = (dictGet m k).isSome := by
  induction m with
  | nil => rfl
  | cons a rest ih =>
    by_cases hk : a.1 = k
    · simp [dictHas, dictGet, List.find?, hk]
    · simp only [dictHas, dictGet, List.any_cons, List.find?] at *
      simp [hk, ih]

theorem dictHas_dictSet_ne {α : Type} (m : List (String × α)) (k k' : String) (v : α)
    (h : k' ≠ k) : dictHas (dictSet m k v) k' = dictHas m k' := by
  rw [dictHas_eq_isSome, dictHas_eq_isSome, dictGet_dictSet_ne m k k' v h]

theorem step_unauth_mono (schema : Schema) (editable : List String)
    (acc : ValidationResult) (item : String × Value) (f : String)
    (h : f ∈ acc.unauthorized_fields) :
    f ∈ (validateUpdateStep schema editable acc item).unauthorized_fields := by
  unfold validateUpdateStep
  split
  · exact List.mem_append_left _ h
  · split
    · exact h
    · exact h

theorem step_filtered_frame (schema : Schema) (editable : List String)
    (acc : ValidationResult) (item : String × Value) (f : String)
    (hf : editable.contains f = false)
    (h : dictHas acc.filtered_data f = false) :
    dictHas (validateUpdateStep schema editable acc item).filtered_data f = false := by
  unfold validateUpdateStep
  split
  · exact h
  · rename_i hc
    rw [not_not] at hc
    have hk : item.1 ≠ f := by
      intro he
      rw [he, hf] at hc
      exact absurd hc (by simp)
    split
    · exact h
    · rename_i res hcall
      show dictHas (dictSet acc.filtered_data item.1 _) f = false
      rw [dictHas_dictSet_ne _ _ _ _ (Ne.symm hk)]
      exact h

theorem fold_filtered_frame (schema : Schema) (editable : List String)
    (upd : List (String × Value)) (acc : ValidationResult) (f : String)
    (hf : editable.contains f = false)
    (h : dictHas acc.filtered_data f = false) :
    dictHas ((upd.foldl (validateUpdateStep schema editable) acc).filtered_data) f = false := by
  induction upd generalizing acc with
  | nil => exact h
  | cons item rest ih =>
    rw [List.foldl_cons]
    exact ih _ (step_filtered_frame schema editable acc item f hf h)

theorem fold_unauth_mono (schema : Schema) (editable : List String)
    (upd : List (String × Value)) (acc : ValidationResult) (f : String)
    (h : f ∈ acc.unauthorized_fields) :
    f ∈ ((upd.foldl (validateUpdateStep schema editable) acc).unauthorized_fields) := by
  induction upd generalizing acc with
  | nil => exact h
  | cons item rest ih =>
    rw [List.foldl_cons]
    exact ih _ (step_unauth_mono schema editable acc item f h)

theorem fold_unauth_hit (schema : Schema) (editable : List String)
    (upd : List (String × Value)) (acc : ValidationResult) (f : String)
    (hf : editable.contains f = false)
    (h : dictHas upd f = true) :
    f ∈ ((upd.foldl (validateUpdateStep schema editable) acc).unauthorized_fields) := by
  induction upd generalizing acc with
  | nil => simp [dictHas] at h
  | cons item rest ih =>
    rw [List.foldl_cons]
    by_cases hk : item.1 = f
    · apply fold_unauth_mono
      unfold validateUpdateStep
      rw [if_pos (show ¬ editable.contains item.1 = true by rw [hk, hf]; simp)]
      show f ∈ acc.unauthorized_fields ++ [item.1]
      rw [hk]
      exact List.mem_append_right _ (List.mem_singleton.mpr rfl)
    · simp only [dictHas, List.any_cons, Bool.or_eq_true, decide_eq_true_eq] at h
      rcases h with hcase | hcase
      · exact absurd hcase hk
      · exact ih _ (by simp [dictHas, hcase])

/-- A concrete schema in the shape of the carta_manifestacion schema: one
editable field, one locked field, one block with the default custom-field
name. -/
def sampleSchema : Schema := {
  fields := [
    ("Nombre_Cliente",
      { ftype := .stringT, editable := true, required := false, enum_values := [],
        validation := { min_length := none, max_length := none } }),
    ("Oficina_Seleccionada",
      { ftype := .stringT, editable := false, required := false, enum_values := [],
        validation := { min_length := none, max_length := none } })],
  blocks := [
    ("scope_base",
      { custom_field := none, append_mode := .newline, label := "",
        custom_type := .text, max_length := some 2000, required := false })] }

/-- C7: the editable-field set contains every field explicitly marked
editable and every block custom field (defaulting to the block key
suffixed with _custom), and a proposed change to any field outside this
set is reported in unauthorized_fields and never appears in the validated
output map. -/
theorem editable_whitelist (schema : Schema) (f : String) :
    ((f ∈ declaredEditableFields schema ∨ f ∈ get_block_custom_fields schema) →
        f ∈ get_editable_fields schema) ∧
    (∀ upd : List (String × Value),
        (get_editable_fields schema).contains f = false →
        ((dictHas upd f = true → f ∈ (validate_update schema upd).unauthorized_fields) ∧
         dictHas (validate_update schema upd).filtered_data f = false)) := by
  constructor
  · intro h
    unfold get_editable_fields
    rcases h with h | h
    · exact List.mem_append_left _ h
    · exact List.mem_append_right _ h
  · intro upd hf
    constructor
    · intro hin
      exact fold_unauth_hit schema (get_editable_fields schema) upd _ f hf hin
    · exact fold_filtered_frame schema (get_editable_fields schema) upd _ f hf rfl

/-- Closed instance of editable_whitelist: the locked field of the sample
schema is reported unauthorized and kept out of the filtered map. -/
theorem editable_whitelist_witness :
    "Oficina_Seleccionada"
      ∈ (validate_update sampleSchema
          [("Oficina_Seleccionada", Value.vStr "HACK")]).unauthorized_fields :=
  ((editable_whitelist sampleSchema "Oficina_Seleccionada").2
      [("Oficina_Seleccionada", Value.vStr "HACK")] (by decide)).1 (by decide)

/-! Serialization round-trip lemmas. -/

theorem toJson_toValue (v : Value) : v.toJson.toValue = some v := by
  cases v <;> rfl

theorem dictGet_append_of_some {α : Type} {l1 : List (String × α)} (l2 : List (String × α))
    {k : String} {v : α} (h : dictGet l1 k = some v) : dictGet (l1 ++ l2) k = some v := by
  unfold dictGet at *
  rw [List.find?_append]
  cases hf : l1.find? (fun p => p.1 = k) with
  | none => rw [hf] at h; simp at h
  | some x => rw [hf] at h; simp_all

theorem dictGet_append_of_none {α : Type} {l1 : List (String × α)} (l2 : List (String × α))
    {k : String} (h : dictGet l1 k = none) : dictGet (l1 ++ l2) k = dictGet l2 k := by
  unfold dictGet at *
  rw [List.find?_append]
  cases hf : l1.find? (fun p => p.1 = k) with
  | none => simp [hf]
  | some x => rw [hf] at h; simp at h

theorem dictGet_optPair_self (k : String) (v : Option JsonV) :
    dictGet (optPair k v) k = v := by
  cases v <;> simp [optPair, dictGet, List.find?]

theorem dictGet_optPair_ne (k k' : String) (v : Option JsonV) (h : k' ≠ k) :
    dictGet (optPair k v) k' = none := by
  cases v <;> simp [optPair, dictGet, List.find?, Ne.symm h]

theorem audit_to_dict_get_timestamp (e : AuditLogEntry) :
    dictGet e.to_dict "timestamp" = some (.jstr e.timestamp) := by
  unfold AuditLogEntry.to_dict
  have h1 : dictGet [("timestamp", JsonV.jstr e.timestamp), ("action", JsonV.jstr e.action),
      ("actor", JsonV.jstr e.actor)] "timestamp" = some (JsonV.jstr e.timestamp) := by
    simp [dictGet, List.find?]
  rw [dictGet_append_of_some _ h1]

theorem audit_to_dict_get_action (e : AuditLogEntry) :
    dictGet e.to_dict "action" = some (.jstr e.action) := by
  unfold AuditLogEntry.to_dict
  have h1 : dictGet [("timestamp", JsonV.jstr e.timestamp), ("action", JsonV.jstr e.action),
      ("actor", JsonV.jstr e.actor)] "action" = some (JsonV.jstr e.action) := by
    simp [dictGet, List.find?]
  rw [dictGet_append_of_some _ h1]

theorem audit_to_dict_get_actor (e : AuditLogEntry) :
    dictGet e.to_dict "actor" = some (.jstr e.actor) := by
  unfold AuditLogEntry.to_dict
  have h1 : dictGet [("timestamp", JsonV.jstr e.timestamp), ("action", JsonV.jstr e.action),
      ("actor", JsonV.jstr e.actor)] "actor" = some (JsonV.jstr e.actor) := by
    simp [dictGet, List.find?]
  rw [dictGet_append_of_some _ h1]

theorem audit_to_dict_get_field_name (e : AuditLogEntry) :
    dictGet e.to_dict "field_name" = e.field_name.map JsonV.jstr := by
  unfold AuditLogEntry.to_dict
  have h0 : dictGet [("timestamp", JsonV.jstr e.timestamp), ("action", JsonV.jstr e.action),
      ("actor", JsonV.jstr e.actor)] "field_name" = none := by
    simp [dictGet, List.find?]
  rw [dictGet_append_of_none _ h0]
  cases hv : e.field_name with
  | some s =>
    simp only [Option.map_some']
    exact dictGet_append_of_some _ (dictGet_optPair_self "field_name" (some (JsonV.jstr s)))
  | none =>
    simp only [Option.map_none']
    rw [show optPair "field_name" (none : Option JsonV) = [] from rfl, List.nil_append]
    rw [dictGet_append_of_none _ (dictGet_optPair_ne "old_value" "field_name" _ (by simp))]
    rw [dictGet_append_of_none _ (dictGet_optPair_ne "new_value" "field_name" _ (by simp))]
    rw [dictGet_append_of_none _ (dictGet_optPair_ne "ip_address" "field_name" _ (by simp))]
    rw [dictGet_append_of_none _ (dictGet_optPair_ne "user_agent" "field_name" _ (by simp))]
    exact dictGet_optPair_ne "details" "field_name" _ (by simp)

theorem audit_to_dict_get_old_value (e : AuditLogEntry) :
    dictGet e.to_dict "old_value" = e.old_value.map Value.toJson := by
  unfold AuditLogEntry.to_dict
  have h0 : dictGet [("timestamp", JsonV.jstr e.timestamp), ("action", JsonV.jstr e.action),
      ("actor", JsonV.jstr e.actor)] "old_value" = none := by
    simp [dictGet, List.find?]
  rw [dictGet_append_of_none _ h0]
  rw [dictGet_append_of_none _ (dictGet_optPair_ne "field_name" "old_value" _ (by simp))]
  cases hv : e.old_value with
  | some s =>
    simp only [Option.map_some']
    exact dictGet_append_of_some _ (dictGet_optPair_self "old_value" (some (Value.toJson s)))
  | none =>
    simp only [Option.map_none']
    rw [show optPair "old_value" (none : Option JsonV) = [] from rfl, List.nil_append]
    rw [dictGet_append_of_none _ (dictGet_optPair_ne "new_value" "old_value" _ (by simp))]
    rw [dictGet_append_of_none _ (dictGet_optPair_ne "ip_address" "old_value" _ (by simp))]
    rw [dictGet_append_of_none _ (dictGet_optPair_ne "user_agent" "old_value" _ (by simp))]
    exact dictGet_optPair_ne "details" "old_value" _ (by simp)

theorem audit_to_dict_get_new_value (e : AuditLogEntry) :
    dictGet e.to_dict "new_value" = e.new_value.map Value.toJson := by
  unfold AuditLogEntry.to_dict
  have h0 : dictGet [("timestamp", JsonV.jstr e.timestamp), ("action", JsonV.jstr e.action),
      ("actor", JsonV.jstr e.actor)] "new_value" = none := by
    simp [dictGet, List.find?]
  rw [dictGet_append_of_none _ h0]
  rw [dictGet_append_of_none _ (dictGet_optPair_ne "field_name" "new_value" _ (by simp))]
  rw [dictGet_append_of_none _ (dictGet_optPair_ne "old_value" "new_value" _ (by simp))]
  cases hv : e.new_value with
  | some s =>
    simp only [Option.map_some']
    exact dictGet_append_of_some _ (dictGet_optPair_self "new_value" (some (Value.toJson s)))
  | none =>
    simp only [Option.map_none']
    rw [show optPair "new_value" (none : Option JsonV) = [] from rfl, List.nil_append]
    rw [dictGet_append_of_none _ (dictGet_optPair_ne "ip_address" "new_value" _ (by simp))]
    rw [dictGet_append_of_none _ (dictGet_optPair_ne "user_agent" "new_value" _ (by simp))]
    exact dictGet_optPair_ne "details" "new_value" _ (by simp)

theorem audit_to_dict_get_ip_address (e : AuditLogEntry) :
    dictGet e.to_dict "ip_address" = e.ip_address.map JsonV.jstr := by
  unfold AuditLogEntry.to_dict
  have h0 : dictGet [("timestamp", JsonV.jstr e.timestamp), ("action", JsonV.jstr e.action),
      ("actor", JsonV.jstr e.actor)] "ip_address" = none := by
    simp [dictGet, List.find?]
  rw [dictGet_append_of_none _ h0]
  rw [dictGet_append_of_none _ (dictGet_optPair_ne "field_name" "ip_address" _ (by simp))]
  rw [dictGet_append_of_none _ (dictGet_optPair_ne "old_value" "ip_address" _ (by simp))]
  rw [dictGet_append_of_none _ (dictGet_optPair_ne "new_value" "ip_address" _ (by simp))]
  cases hv : e.ip_address with
  | some s =>
    simp only [Option.map_some']
    exact dictGet_append_of_some _ (dictGet_optPair_self "ip_address" (some (JsonV.jstr s)))
  | none =>
    simp only [Option.map_none']
    rw [show optPair "ip_address" (none : Option JsonV) = [] from rfl, List.nil_append]
    rw [dictGet_append_of_none _ (dictGet_optPair_ne "user_agent" "ip_address" _ (by simp))]
    exact dictGet_optPair_ne "details" "ip_address" _ (by simp)

theorem audit_to_dict_get_user_agent (e : AuditLogEntry) :
    dictGet e.to_dict "user_agent" = e.user_agent.map JsonV.jstr := by
  unfold AuditLogEntry.to_dict
  have h0 : dictGet [("timestamp", JsonV.jstr e.timestamp), ("action", JsonV.jstr e.action),
      ("actor", JsonV.jstr e.actor)] "user_agent" = none := by
    simp [dictGet, List.find?]
  rw [dictGet_append_of_none _ h0]
  rw [dictGet_append_of_none _ (dictGet_optPair_ne "field_name" "user_agent" _ (by simp))]
  rw [dictGet_append_of_none _ (dictGet_optPair_ne "old_value" "user_agent" _ (by simp))]
  rw [dictGet_append_of_none _ (dictGet_optPair_ne "new_value" "user_agent" _ (by simp))]
  rw [dictGet_append_of_none _ (dictGet_optPair_ne "ip_address" "user_agent" _ (by simp))]
  cases hv : e.user_agent with
  | some s =>
    simp only [Option.map_some']
    exact dictGet_append_of_some _ (dictGet_optPair_self "user_agent" (some (JsonV.jstr s)))
  | none =>
    simp only [Option.map_none']
    rw [show optPair "user_agent" (none : Option JsonV) = [] from rfl, List.nil_append]
    exact dictGet_optPair_ne "details" "user_agent" _ (by simp)

theorem audit_to_dict_get_details (e : AuditLogEntry) :
    dictGet e.to_dict "details" = e.details.map JsonV.jstr := by
  unfold AuditLogEntry.to_dict
  have h0 : dictGet [("timestamp", JsonV.jstr e.timestamp), ("action", JsonV.jstr e.action),
      ("actor", JsonV.jstr e.actor)] "details" = none := by
    simp [dictGet, List.find?]
  rw [dictGet_append_of_none _ h0]
  rw [dictGet_append_of_none _ (dictGet_optPair_ne "field_name" "details" _ (by simp))]
  rw [dictGet_append_of_none _ (dictGet_optPair_ne "old_value" "details" _ (by simp))]
  rw [dictGet_append_of_none _ (dictGet_optPair_ne "new_value" "details" _ (by simp))]
  rw [dictGet_append_of_none _ (dictGet_optPair_ne "ip_address" "details" _ (by simp))]
  rw [dictGet_append_of_none _ (dictGet_optPair_ne "user_agent" "details" _ (by simp))]
  cases hv : e.details with
  | some s =>
    simp only [Option.map_some']
    exact dictGet_optPair_self "details" (some (JsonV.jstr s))
  | none =>
    simp only [Option.map_none']
    rfl

theorem audit_entry_round (e : AuditLogEntry) :
    AuditLogEntry.from_dict e.to_dict = some e := by
  cases e with
  | mk ts ac who fn ov nv ip ua dt =>
    unfold AuditLogEntry.from_dict getStr? getVal?
    rw [audit_to_dict_get_timestamp, audit_to_dict_get_action, audit_to_dict_get_actor,
        audit_to_dict_get_field_name, audit_to_dict_get_old_value, audit_to_dict_get_new_value,
        audit_to_dict_get_ip_address, audit_to_dict_get_user_agent, audit_to_dict_get_details]
    cases fn <;> cases ov <;> cases nv <;> cases ip <;> cases ua <;> cases dt <;>
      simp [toJson_toValue]

theorem status_value_round (s : ReviewStatus) : ReviewStatus.ofValue s.value = some s := by
  cases s <;> rfl

theorem parseEntries_round (l : List AuditLogEntry) :
    parseEntries (l.map (fun e => .jobj e.to_dict)) = some l := by
  induction l with
  | nil => rfl
  | cons e rest ih => simp [parseEntries, audit_entry_round, ih]

theorem parseDataMap_round (dm : DataMap) :
    parseDataMap (dm.map (fun p => (p.1, p.2.toJson))) = some dm := by
  induction dm with
  | nil => rfl
  | cons p rest ih => simp [parseDataMap, toJson_toValue, ih]

/-- C8: deserializing a serialized review restores it field for field —
identifier, doc_type, status, data map, creator, timestamps, downloader
identity and the audit log with its entries in order — and likewise
deserializing a serialized audit entry restores it exactly. -/
theorem review_serialization_round_trip :
    (∀ e : AuditLogEntry, AuditLogEntry.from_dict e.to_dict = some e) ∧
    (∀ r : Review, Review.from_dict r.to_dict = some r) := by
  refine ⟨audit_entry_round, ?_⟩
  intro r
  cases r with
  | mk rid dt st dataj cb ca log sub dl db =>
    unfold Review.from_dict Review.to_dict getStr? getIso?
    simp only [dictGet, List.find?]
    cases sub <;> cases dl <;> cases db <;>
      simp [status_value_round, parseEntries_round, parseDataMap_round, optIso, optJStr]
